import Mathlib

/-
Verification of the alignment core of the align-images-for-lenticular
repository.

The numerical code is embedded over ℚ.  JavaScript floating-point
transcendental primitives (Math.cos, Math.sin, Math.sqrt) are kept
abstract: definitions take oracle functions cosD sinD sqrtQ : ℚ → ℚ as
parameters, where cosD a models Math.cos (a * π / 180) and sinD a models
Math.sin (a * π / 180).  The statistical 2σ cutoff of the correspondence
filter is rendered sqrt-free by the exact equivalence
  d < μ + 2·√v  ↔  d < μ ∨ (d - μ)² < 4·v   (for v ≥ 0),
proved below against Real.sqrt (lemma withinTwoSigma_iff_sqrt).
-/

/-- Planar point, as used for keypoints and rotation centers
(src/unnamed/part_000, imageAlignment.ts). -/
structure Point where
  x : ℚ
  y : ℚ
  deriving DecidableEq, Repr

/-- Axis-aligned selected region {x, y, width, height} in image pixel
coordinates (src/src/utils/imageTransform.ts). -/
structure Rect where
  x : ℚ
  y : ℚ
  width : ℚ
  height : ℚ
  deriving DecidableEq, Repr

/-- Per-image transform {scale, rotation (degrees), translateX, translateY}
(src/src/utils/imageTransform.ts). -/
structure Transform where
  scale : ℚ
  rotation : ℚ
  translateX : ℚ
  translateY : ℚ
  deriving DecidableEq, Repr

/-- An OpenCV DMatch as consumed by the filter and the rotation solver:
query/train keypoint indices and a distance score
(src/unnamed/part_000, matchFeatures / calculateOptimalRotation). -/
structure DMatch where
  queryIdx : ℕ
  trainIdx : ℕ
  distance : ℚ
  deriving DecidableEq, Repr

/-- Return value of calculateOptimalRotation:
{ rotation, translateY } (src/unnamed/part_000 lines 594-601). -/
structure RotationResult where
  rotation : ℚ
  translateY : ℚ
  deriving DecidableEq, Repr

/-- The slice of an image record read by the alignment logic:
dimensions, optional selected region and current transform
(src/src/utils/imageTransform.ts TransformedImage, src/src/App.tsx). -/
structure AlignImage where
  width : ℚ
  height : ℚ
  selectedArea : Option Rect
  transform : Transform
  deriving DecidableEq, Repr

instance : Inhabited AlignImage :=
  ⟨⟨0, 0, none, ⟨1, 0, 0, 0⟩⟩⟩

/-- Center of a selected region: origin + size/2, the anchor used by both
translation and rotation solving. -/
def rectCenter (r : Rect) : Point :=
  ⟨r.x + r.width / 2, r.y + r.height / 2⟩

/-- Embedding of calculateCenterImageTransform
(src/src/utils/imageTransform.ts lines 17-72): translation moves the
selected region's center onto the image center; scale is forced to 1.0
and rotation is carried over from the current transform.  Without a
selected region the translation is (0, 0). -/
def calculateCenterImageTransform (width height : ℚ) (currentTransform : Transform)
    (selectedArea : Option Rect) : Transform :=
  let translate : ℚ × ℚ :=
    match selectedArea with
    | some area =>
        (-(area.x + area.width / 2 - width / 2),
         -(area.y + area.height / 2 - height / 2))
    | none => (0, 0)
  ⟨1, currentTransform.rotation, translate.1, translate.2⟩

/-- Embedding of calculateAlignImagesTransform
(src/src/utils/imageTransform.ts lines 77-140): the new translation is
the difference between where image1's (reference) region center already
sits on the canvas and where image2's (current) region center would sit
with zero translation.  Scale is forced to 1.0, rotation carried over
from image2's current transform. -/
def calculateAlignImagesTransform (image1Width image1Height : ℚ)
    (image1Transform : Transform) (image2Width image2Height : ℚ)
    (image2Transform : Transform)
    (image1SelectedArea image2SelectedArea : Option Rect) : Transform :=
  let translate : ℚ × ℚ :=
    match image1SelectedArea, image2SelectedArea with
    | some a1, some a2 =>
        let c1x := a1.x + a1.width / 2
        let c1y := a1.y + a1.height / 2
        let c2x := a2.x + a2.width / 2
        let c2y := a2.y + a2.height / 2
        let canvas1x := image1Transform.translateX + (c1x - image1Width / 2)
        let canvas1y := image1Transform.translateY + (c1y - image1Height / 2)
        let canvas2x := c2x - image2Width / 2
        let canvas2y := c2y - image2Height / 2
        (canvas1x - canvas2x, canvas1y - canvas2y)
    | _, _ => (0, 0)
  ⟨1, image2Transform.rotation, translate.1, translate.2⟩

/-- The identity transform used as fold seed by combineTransforms
(src/src/utils/imageTransform.ts line 146). -/
def identityTransform : Transform :=
  ⟨1, 0, 0, 0⟩

/-- One iteration of the combineTransforms loop
(src/src/utils/imageTransform.ts lines 148-166): rotations add, scales
multiply, and the incoming translation is rotated by the accumulated
rotation before being added.  cosD a and sinD a stand for
Math.cos (a * π / 180) and Math.sin (a * π / 180). -/
def combineStep (cosD sinD : ℚ → ℚ) (combined t : Transform) : Transform :=
  let c := cosD combined.rotation
  let s := sinD combined.rotation
  ⟨combined.scale * t.scale,
   combined.rotation + t.rotation,
   combined.translateX + (t.translateX * c - t.translateY * s),
   combined.translateY + (t.translateX * s + t.translateY * c)⟩

/-- Embedding of combineTransforms (src/src/utils/imageTransform.ts
lines 145-169): left fold of combineStep over the argument list starting
from the identity transform. -/
def combineTransforms (cosD sinD : ℚ → ℚ) (ts : List Transform) : Transform :=
  ts.foldl (combineStep cosD sinD) identityTransform

/-- Canvas position of an image pixel p under a transform, relative to
the shared canvas center: the draw sequence is
ctx.translate(W/2 + tx, H/2 + ty); ctx.rotate; ctx.scale;
ctx.drawImage(img, -w/2, -h/2) (src/unnamed/part_000, ImageCanvas
drawSelectedImage), so p lands at canvasCenter + t + R(rot)·s·(p - c)
with c the image's own pixel midpoint.  The common canvasCenter summand
is dropped, leaving the part that differs between images. -/
def canvasMap (cosD sinD : ℚ → ℚ) (t : Transform) (imgWidth imgHeight : ℚ)
    (p : Point) : Point :=
  let relX := p.x - imgWidth / 2
  let relY := p.y - imgHeight / 2
  ⟨t.translateX + t.scale * (relX * cosD t.rotation - relY * sinD t.rotation),
   t.translateY + t.scale * (relX * sinD t.rotation + relY * cosD t.rotation)⟩

/-- Distances of a match list sorted ascending, mirroring
matchesArray.map(m => m.distance).sort((a, b) => a - b)
(src/unnamed/part_000 line 510). -/
def sortedDistances (l : List DMatch) : List ℚ :=
  (l.map fun m => m.distance).insertionSort (· ≤ ·)

/-- The median used by matchFeatures: element at index ⌊n/2⌋ of the
ascending-sorted distance list (src/unnamed/part_000 line 513); for even
n this is the upper of the two middle elements. -/
def medianDistance (l : List DMatch) : ℚ :=
  (sortedDistances l).getD (l.length / 2) 0

/-- Sqrt-free rendering of the source's outlier test
distance < meanDist + 2 * stdDist with stdDist = √v
(src/unnamed/part_000 lines 522-525): for v ≥ 0 this Boolean equals
(d : ℝ) < μ + 2·Real.sqrt v, see withinTwoSigma_iff_sqrt. -/
def withinTwoSigma (d mean var : ℚ) : Bool :=
  decide (d < mean) || decide ((d - mean) ^ 2 < 4 * var)

/-- Embedding of the pure filtering stage of matchFeatures
(src/unnamed/part_000 lines 505-528); the preceding BFMatcher call is
the external matcher collaborator and supplies the input list.
Stage 1 keeps matches with distance strictly below
min(50, 0.8 * median); stage 2, run only when stage 1 kept anything,
keeps matches with distance below mean + 2 * (population std dev). -/
def matchFeatures (matchesArray : List DMatch) : List DMatch :=
  if matchesArray = [] then []
  else
    let distanceThreshold := min 50 (medianDistance matchesArray * (4 / 5))
    let goodMatches := matchesArray.filter fun m => m.distance < distanceThreshold
    if goodMatches = [] then goodMatches
    else
      let matchDistances := goodMatches.map fun m => m.distance
      let meanDist := matchDistances.sum / (matchDistances.length : ℚ)
      let varDist :=
        (matchDistances.map fun d => (d - meanDist) ^ 2).sum / (matchDistances.length : ℚ)
      goodMatches.filter fun m => withinTwoSigma m.distance meanDist varDist

/-- Conventional median of a list of rationals: middle element for odd
length, mean of the two middle elements for even length.  Written from
the claim's words for comparison with the source's medianDistance. -/
def trueMedian (l : List ℚ) : ℚ :=
  let s := l.insertionSort (· ≤ ·)
  if l.length % 2 = 1 then s.getD (l.length / 2) 0
  else (s.getD (l.length / 2 - 1) 0 + s.getD (l.length / 2) 0) / 2

/-- The correspondence filter exactly as the claim words it (C4, spec
§4.3): median over all correspondences (conventional median), keep
strictly below min(50, 0.8·m), then over the kept set drop everything
with distance ≥ μ + 2σ; empty input returns empty without statistics. -/
def correspondenceFilterSpec (l : List DMatch) : List DMatch :=
  if l = [] then []
  else
    let m := trueMedian (l.map fun c => c.distance)
    let kept := l.filter fun c => c.distance < min 50 (m * (4 / 5))
    let ds := kept.map fun c => c.distance
    let mean := ds.sum / (ds.length : ℚ)
    let var := (ds.map fun d => (d - mean) ^ 2).sum / (ds.length : ℚ)
    kept.filter fun c => withinTwoSigma c.distance mean var

/-- The correspondence filter as the amended claim words it: identical
to correspondenceFilterSpec except that the median is the element at
index ⌊n/2⌋ of the ascending-sorted distances (upper median for even
length), matching the source's median convention. -/
def correspondenceFilterAmended (l : List DMatch) : List DMatch :=
  if l = [] then []
  else
    let s := (l.map fun c => c.distance).insertionSort (· ≤ ·)
    let m := s.getD (l.length / 2) 0
    let kept := l.filter fun c => c.distance < min 50 (m * (4 / 5))
    let ds := kept.map fun c => c.distance
    let mean := ds.sum / (ds.length : ℚ)
    let var := (ds.map fun d => (d - mean) ^ 2).sum / (ds.length : ℚ)
    kept.filter fun c => withinTwoSigma c.distance mean var

/-- Candidate angles of the brute-force rotation scan: the loop
for (angle = -30; angle <= 30; angle += 0.5) visits the 121 values
-30, -29.5, ..., 30 in ascending order (src/unnamed/part_000 line 565);
all the partial sums are exact in binary floating point. -/
def scanAngles : List ℚ :=
  (List.range 121).map fun k : ℕ => -30 + (k : ℚ) * (1 / 2)

/-- Total residual of one candidate angle (src/unnamed/part_000 lines
566-592): every second point is rotated around rotationCenter by the
angle and the Euclidean distances to the corresponding first points are
summed in input order.  sqrtQ models Math.sqrt. -/
def totalDistanceAt (cosD sinD sqrtQ : ℚ → ℚ) (pts : List (Point × Point))
    (rotationCenter : Point) (angle : ℚ) : ℚ :=
  let c := cosD angle
  let s := sinD angle
  (pts.map fun pp =>
    let relativeX := pp.2.x - rotationCenter.x
    let relativeY := pp.2.y - rotationCenter.y
    let rotatedX := relativeX * c - relativeY * s
    let rotatedY := relativeX * s + relativeY * c
    let finalX := rotatedX + rotationCenter.x
    let finalY := rotatedY + rotationCenter.y
    sqrtQ ((pp.1.x - finalX) ^ 2 + (pp.1.y - finalY) ^ 2)).sum

/-- The scan loop's accumulator (src/unnamed/part_000 lines 561-598):
state is (bestRotation, minTotalDistance), with none standing for the
initial Infinity, against which every finite candidate wins. -/
def scanFold (f : ℚ → ℚ) : List ℚ → ℚ × Option ℚ → ℚ × Option ℚ
  | [], st => st
  | a :: rest, (_, none) => scanFold f rest (a, some (f a))
  | a :: rest, (best, some v) =>
      scanFold f rest (if f a < v then (a, some (f a)) else (best, some v))

/-- Embedding of calculateOptimalRotation (src/unnamed/part_000 lines
534-601).  Keypoints are indexed by the match's query/train indices
(keypoints.get); with fewer than 3 matches the current rotation is
returned unchanged.  The rotation center is the supplied region center,
defaulting to the origin. -/
def calculateOptimalRotation (cosD sinD sqrtQ : ℚ → ℚ)
    (keypoints1 keypoints2 : ℕ → Point) (ms : List DMatch)
    (currentRotation : ℚ) (selectedAreaCenter : Option Point) : RotationResult :=
  if ms.length < 3 then ⟨currentRotation, 0⟩
  else
    let pts := ms.map fun m => (keypoints1 m.queryIdx, keypoints2 m.trainIdx)
    let rotationCenter := selectedAreaCenter.getD ⟨0, 0⟩
    let best :=
      (scanFold (totalDistanceAt cosD sinD sqrtQ pts rotationCenter) scanAngles
        (currentRotation, none)).1
    ⟨best, 0⟩

/-- First minimizer of f over a list, earlier elements winning ties;
proof-side companion of scanFold. -/
def firstArgmin (f : ℚ → ℚ) : List ℚ → Option ℚ
  | [] => none
  | a :: rest =>
      match firstArgmin f rest with
      | none => some a
      | some c => if f a ≤ f c then some a else some c

/-- Guard logic of handleAutoAlign (src/src/App.tsx lines 198-260):
with fewer than 2 images, or when any image lacks a selected region, the
handler alerts and returns before any alignment work, leaving the image
list unchanged; otherwise the image list is replaced by the result of
alignAllImages, abstracted here as the parameter alignAll. -/
def handleAutoAlign (alignAll : List AlignImage → List AlignImage)
    (images : List AlignImage) : List AlignImage :=
  if images.length < 2 then images
  else if images.any fun img => img.selectedArea.isNone then images
  else alignAll images

/-- Guard logic of handleAlignByArea (src/src/App.tsx lines 262-305):
same guards as handleAutoAlign, then the list is replaced by the result
of alignImagesByAreaOnly, abstracted as the parameter alignByArea. -/
def handleAlignByArea (alignByArea : List AlignImage → List AlignImage)
    (images : List AlignImage) : List AlignImage :=
  if images.length < 2 then images
  else if images.any fun img => img.selectedArea.isNone then images
  else alignByArea images

/-- Modelled from the spec: the chained step of the translation pass
(spec §4.5 step 1) for the images after the first — the concrete
alignImagesByAreaOnly lives in src/utils/imageAlignment.ts, which is not
under src/.  Each image with a region whose predecessor (already
updated) also has a region receives the alignToReference transform;
otherwise it is left untouched. -/
def alignChain (prev : AlignImage) : List AlignImage → List AlignImage
  | [] => []
  | cur :: rest =>
      let cur' :=
        if prev.selectedArea.isSome && cur.selectedArea.isSome then
          { cur with
            transform :=
              calculateAlignImagesTransform prev.width prev.height prev.transform
                cur.width cur.height cur.transform prev.selectedArea
                cur.selectedArea }
        else cur
      cur' :: alignChain cur' rest

/-- Modelled from the spec: the translation-only pass (spec §4.5 steps
1 and 3) — the concrete alignImagesByAreaOnly lives in
src/utils/imageAlignment.ts, which is not under src/.  Image 0 is
centered on its region when it has one; each later image is aligned to
its already-updated predecessor via alignChain. -/
def alignImagesByAreaOnlySpec : List AlignImage → List AlignImage
  | [] => []
  | img0 :: rest =>
      let i0 :=
        if img0.selectedArea.isSome then
          { img0 with
            transform :=
              calculateCenterImageTransform img0.width img0.height img0.transform
                img0.selectedArea }
        else img0
      i0 :: alignChain i0 rest

/-- Modelled from the spec: the per-image step of the rotation pass
(spec §4.5 step 2) — the concrete alignAllImages /
alignImagesByRotationOnly live in src/utils/imageAlignment.ts, which is
not under src/.  Image 0 is untouched; image j (j ≥ 1) gets its rotation
overwritten by the solver run on pair j-1's filtered correspondences
when both images of the pair have regions (rotation center = image j's
region center), and keeps its transform otherwise.  corrs j-1 is the raw
correspondence list the external matcher returns for pair j-1, and
kpA/kpB its keypoint tables. -/
def rotationPassStep (cosD sinD sqrtQ : ℚ → ℚ) (corrs : ℕ → List DMatch)
    (kpA kpB : ℕ → ℕ → Point) (images : List AlignImage) (j : ℕ) : AlignImage :=
  if j = 0 then images.getD j default
  else
    match (images.getD (j - 1) default).selectedArea,
        (images.getD j default).selectedArea with
    | some _, some r =>
        { images.getD j default with
          transform :=
            { (images.getD j default).transform with
              rotation :=
                (calculateOptimalRotation cosD sinD sqrtQ (kpA (j - 1)) (kpB (j - 1))
                  (matchFeatures (corrs (j - 1)))
                  (images.getD j default).transform.rotation
                  (some (rectCenter r))).rotation } }
    | _, _ => images.getD j default

/-- Modelled from the spec: the rotation pass over the whole list (spec
§4.5 step 2) — the concrete orchestrator is not under src/.  Every image
is rewritten by its own rotationPassStep; translations are never
touched. -/
def rotationPassSpec (cosD sinD sqrtQ : ℚ → ℚ) (corrs : ℕ → List DMatch)
    (kpA kpB : ℕ → ℕ → Point) (images : List AlignImage) : List AlignImage :=
  (List.range images.length).map (rotationPassStep cosD sinD sqrtQ corrs kpA kpB images)

/-- Modelled from the spec: the orchestrator merges a rotation-solver
result into an image's transform by overwriting only the rotation field
(spec §4.5 step 2: translation from pass 1 is preserved); the concrete
merge is in src/utils/imageAlignment.ts, which is not under src/. -/
def applyRotationResult (t : Transform) (res : RotationResult) : Transform :=
  { t with rotation := res.rotation }

/-- Concrete input for the C4 counterexample: four matches with
distances 10, 14, 20, 30. -/
def c4Input : List DMatch :=
  [⟨0, 0, 10⟩, ⟨1, 1, 14⟩, ⟨2, 2, 20⟩, ⟨3, 3, 30⟩]

/-- Concrete input for the C5 counterexample: three matches with the
identical distance 10. -/
def c5Input : List DMatch :=
  [⟨0, 0, 10⟩, ⟨1, 1, 10⟩, ⟨2, 2, 10⟩]

/-- Concrete input for the C6 counterexample: three 1000×800 images, the
middle one without a selected region; image 0 carries a nonzero initial
translation so that centering it would visibly change its transform. -/
def c6Images : List AlignImage :=
  [⟨1000, 800, some ⟨100, 100, 50, 50⟩, ⟨1, 0, 5, 5⟩⟩,
   ⟨1000, 800, none, ⟨1, 0, 0, 0⟩⟩,
   ⟨1000, 800, some ⟨80, 110, 50, 50⟩, ⟨1, 0, 0, 0⟩⟩]

/-- The sqrt-free outlier test agrees with the source's real-number test
distance < mean + 2 * sqrt(variance) whenever the variance is
nonnegative. -/
theorem withinTwoSigma_iff_sqrt (d mean var : ℚ) (hv : 0 ≤ (var : ℝ)) :
    withinTwoSigma d mean var = true ↔
      (d : ℝ) < (mean : ℝ) + 2 * Real.sqrt (var : ℝ) := by
  unfold withinTwoSigma
  rw [Bool.or_eq_true, decide_eq_true_eq, decide_eq_true_eq]
  constructor
  · rintro (hlt | hsq)
    · have h2 : (0 : ℝ) ≤ 2 * Real.sqrt (var : ℝ) := by positivity
      have : (d : ℝ) < (mean : ℝ) := by exact_mod_cast hlt
      linarith
    · by_cases hdm : (d : ℝ) < (mean : ℝ)
      · have h2 : (0 : ℝ) ≤ 2 * Real.sqrt (var : ℝ) := by positivity
        linarith
      · push_neg at hdm
        have hx : (0 : ℝ) ≤ ((d : ℝ) - (mean : ℝ)) / 2 := by linarith
        have hsq' : ((d : ℝ) - (mean : ℝ)) ^ 2 < 4 * (var : ℝ) := by exact_mod_cast hsq
        have hlt2 : (((d : ℝ) - (mean : ℝ)) / 2) ^ 2 < (var : ℝ) := by nlinarith
        have := (Real.lt_sqrt hx).mpr hlt2
        linarith
  · intro hlt
    by_cases hdm : d < mean
    · exact Or.inl hdm
    · push_neg at hdm
      right
      have hdm' : (mean : ℝ) ≤ (d : ℝ) := by exact_mod_cast hdm
      have hx : (0 : ℝ) ≤ ((d : ℝ) - (mean : ℝ)) / 2 := by linarith
      have hlt2 : ((d : ℝ) - (mean : ℝ)) / 2 < Real.sqrt (var : ℝ) := by linarith
      have hsq : (((d : ℝ) - (mean : ℝ)) / 2) ^ 2 < (var : ℝ) := by
        have hnn := Real.sqrt_nonneg (var : ℝ)
        nlinarith [Real.sq_sqrt hv]
      have : ((d : ℝ) - (mean : ℝ)) ^ 2 < 4 * (var : ℝ) := by nlinarith
      exact_mod_cast this

/-- C1: calculateCenterImageTransform returns scale 1, the current
rotation unchanged, and translation equal to the negation of
(region center minus image center), so that region center plus the
resulting translation is the image center (W/2, H/2). -/
theorem calculateCenterImageTransform_centers (w h : ℚ) (t : Transform) (r : Rect) :
    (calculateCenterImageTransform w h t (some r)).scale = 1 ∧
    (calculateCenterImageTransform w h t (some r)).rotation = t.rotation ∧
    (calculateCenterImageTransform w h t (some r)).translateX
      = -((r.x + r.width / 2) - w / 2) ∧
    (calculateCenterImageTransform w h t (some r)).translateY
      = -((r.y + r.height / 2) - h / 2) ∧
    (r.x + r.width / 2) + (calculateCenterImageTransform w h t (some r)).translateX
      = w / 2 ∧
    (r.y + r.height / 2) + (calculateCenterImageTransform w h t (some r)).translateY
      = h / 2 := by
  refine ⟨rfl, rfl, rfl, rfl, ?_, ?_⟩ <;>
    simp only [calculateCenterImageTransform] <;> ring

/-- C8: composing with the identity transform {scale 1, rotation 0,
translation (0,0)} on either side returns the other transform exactly,
both for a single combineTransforms step and for combineTransforms
itself; cosD 0 = 1 and sinD 0 = 0 are the exact values Math.cos and
Math.sin take at 0. -/
theorem combineTransforms_identity (cosD sinD : ℚ → ℚ) (T : Transform)
    (hc : cosD 0 = 1) (hs : sinD 0 = 0) :
    combineStep cosD sinD identityTransform T = T ∧
    combineStep cosD sinD T identityTransform = T ∧
    combineTransforms cosD sinD [identityTransform, T] = T ∧
    combineTransforms cosD sinD [T, identityTransform] = T := by
  obtain ⟨s, rot, tx, ty⟩ := T
  have h1 : combineStep cosD sinD identityTransform ⟨s, rot, tx, ty⟩ = ⟨s, rot, tx, ty⟩ := by
    simp [combineStep, identityTransform, hc, hs]
  have h2 : combineStep cosD sinD ⟨s, rot, tx, ty⟩ identityTransform = ⟨s, rot, tx, ty⟩ := by
    simp [combineStep, identityTransform]
  have hid : combineStep cosD sinD identityTransform identityTransform = identityTransform := by
    simp [combineStep, identityTransform, hc, hs]
  refine ⟨h1, h2, ?_, ?_⟩
  · show combineStep cosD sinD (combineStep cosD sinD identityTransform identityTransform) _ = _
    rw [hid, h1]
  · show combineStep cosD sinD (combineStep cosD sinD identityTransform _) identityTransform = _
    rw [h1, h2]

/-- C9: every solver of the core fixes scale at 1: both translation
solvers return scale = 1 for every input (whatever the current
transform's scale), and merging the rotation solver's result into a
transform leaves the scale untouched. -/
theorem solvers_fix_scale (w h : ℚ) (t : Transform) (a : Option Rect)
    (w1 h1 : ℚ) (t1 : Transform) (w2 h2 : ℚ) (t2 : Transform)
    (a1 a2 : Option Rect) (cosD sinD sqrtQ : ℚ → ℚ) (kp1 kp2 : ℕ → Point)
    (ms : List DMatch) (cur : ℚ) (center : Option Point) (t3 : Transform) :
    (calculateCenterImageTransform w h t a).scale = 1 ∧
    (calculateAlignImagesTransform w1 h1 t1 w2 h2 t2 a1 a2).scale = 1 ∧
    (applyRotationResult t3
        (calculateOptimalRotation cosD sinD sqrtQ kp1 kp2 ms cur center)).scale
      = t3.scale :=
  ⟨rfl, rfl, rfl⟩

/-- Constant-one oracle, the exact value of Math.cos at 0. -/
def oneFun : ℚ → ℚ := fun _ => 1

/-- Constant-zero oracle, the exact value of Math.sin at 0. -/
def zeroFun : ℚ → ℚ := fun _ => 0

/-- Witness for C8 at a concrete transform. -/
theorem combineTransforms_identity_witness :
    oneFun 0 = 1 ∧ zeroFun 0 = 0 ∧
    (combineStep oneFun zeroFun identityTransform ⟨2, 5, 3, 4⟩ = ⟨2, 5, 3, 4⟩ ∧
     combineStep oneFun zeroFun ⟨2, 5, 3, 4⟩ identityTransform = ⟨2, 5, 3, 4⟩ ∧
     combineTransforms oneFun zeroFun [identityTransform, ⟨2, 5, 3, 4⟩] = ⟨2, 5, 3, 4⟩ ∧
     combineTransforms oneFun zeroFun [⟨2, 5, 3, 4⟩, identityTransform] = ⟨2, 5, 3, 4⟩) :=
  ⟨rfl, rfl, combineTransforms_identity oneFun zeroFun ⟨2, 5, 3, 4⟩ rfl rfl⟩

/-- The scan accumulator on a state with a finite current minimum v
yields the list's first minimizer when that minimizer beats v, and the
incoming best value otherwise. -/
theorem scanFold_some_eq (f : ℚ → ℚ) (l : List ℚ) :
    ∀ b v : ℚ, (scanFold f l (b, some v)).1 =
      match firstArgmin f l with
      | none => b
      | some a => if f a < v then a else b := by
  induction l with
  | nil => intro b v; rfl
  | cons a rest ih =>
      intro b v
      by_cases hav : f a < v
      · have h1 : scanFold f (a :: rest) (b, some v)
            = scanFold f rest (a, some (f a)) := by
          simp [scanFold, hav]
        rw [h1, ih]
        rcases hfa : firstArgmin f rest with _ | c
        · simp [firstArgmin, hfa, hav]
        · by_cases hac : f a ≤ f c
          · have hnlt : ¬ f c < f a := not_lt.mpr hac
            simp [firstArgmin, hfa, hac, hnlt, hav]
          · have hca : f c < f a := not_le.mp hac
            have hcv : f c < v := lt_trans hca hav
            simp [firstArgmin, hfa, hac, hca, hcv]
      · have h1 : scanFold f (a :: rest) (b, some v)
            = scanFold f rest (b, some v) := by
          simp [scanFold, hav]
        rw [h1, ih]
        rcases hfa : firstArgmin f rest with _ | c
        · simp [firstArgmin, hfa, hav]
        · by_cases hac : f a ≤ f c
          · have hcv : ¬ f c < v := by
              intro hcv
              exact hav (lt_of_le_of_lt hac hcv)
            simp [firstArgmin, hfa, hac, hav, hcv]
          · simp [firstArgmin, hfa, hac]

/-- Started from the Infinity state, the scan accumulator returns the
list's first minimizer whenever the list is nonempty: the first
candidate always replaces the initial best value. -/
theorem scanFold_none_eq (f : ℚ → ℚ) (l : List ℚ) (b : ℚ) :
    (scanFold f l (b, none)).1 =
      match firstArgmin f l with
      | none => b
      | some a => a := by
  cases l with
  | nil => rfl
  | cons a rest =>
      have h1 : scanFold f (a :: rest) (b, none)
          = scanFold f rest (a, some (f a)) := rfl
      rw [h1, scanFold_some_eq]
      rcases hfa : firstArgmin f rest with _ | c
      · simp [firstArgmin, hfa]
      · by_cases hca : f c < f a
        · have hac : ¬ f a ≤ f c := not_le.mpr hca
          simp [firstArgmin, hfa, hca, hac]
        · have hac : f a ≤ f c := not_lt.mp hca
          simp [firstArgmin, hfa, hca, hac]

/-- firstArgmin returns none exactly on the empty list. -/
theorem firstArgmin_eq_none_iff (f : ℚ → ℚ) (l : List ℚ) :
    firstArgmin f l = none ↔ l = [] := by
  cases l with
  | nil => simp [firstArgmin]
  | cons a rest =>
      rcases hfa : firstArgmin f rest with _ | c <;>
        simp [firstArgmin, hfa] <;> split <;> simp

/-- Decomposition around the first minimizer: everything before it has a
strictly larger f-value, everything after it a value at least as large. -/
theorem firstArgmin_decomp (f : ℚ → ℚ) :
    ∀ (l : List ℚ) (a : ℚ), firstArgmin f l = some a →
      ∃ l1 l2, l = l1 ++ a :: l2 ∧ (∀ b ∈ l1, f a < f b) ∧ (∀ b ∈ l2, f a ≤ f b) := by
  intro l
  induction l with
  | nil => intro a h; simp [firstArgmin] at h
  | cons x rest ih =>
      intro a h
      rcases hfa : firstArgmin f rest with _ | c
      · have hrest : rest = [] := (firstArgmin_eq_none_iff f rest).mp hfa
        subst hrest
        have hxa : x = a := by
          simpa [firstArgmin] using h
        subst hxa
        exact ⟨[], [], by simp, by simp, by simp⟩
      · obtain ⟨r1, r2, hsplit, hstrict, hle⟩ := ih c hfa
        by_cases hac : f x ≤ f c
        · have hxa : x = a := by
            simp [firstArgmin, hfa, hac] at h
            exact h
          subst hxa
          refine ⟨[], rest, by simp, by simp, ?_⟩
          intro b hb
          rw [hsplit] at hb
          rcases List.mem_append.mp hb with hb1 | hb2
          · exact le_of_lt (lt_of_le_of_lt hac (hstrict b hb1))
          · rcases List.mem_cons.mp hb2 with rfl | hb3
            · exact hac
            · exact le_trans hac (hle b hb3)
        · have hca : a = c := by
            simp [firstArgmin, hfa, hac] at h
            exact h.symm
          subst hca
          refine ⟨x :: r1, r2, by simp [hsplit], ?_, hle⟩
          intro b hb
          rcases List.mem_cons.mp hb with rfl | hb1
          · exact not_le.mp hac
          · exact hstrict b hb1

/-- The candidate scan is nonempty. -/
theorem scanAngles_ne_nil : scanAngles ≠ [] := by
  intro h
  have hlen : scanAngles.length = 121 := rfl
  rw [h] at hlen
  simp at hlen

/-- Every candidate angle of the scan lies in [-30, 30]. -/
theorem scanAngles_mem_bounds : ∀ a ∈ scanAngles, -30 ≤ a ∧ a ≤ 30 := by
  intro a ha
  unfold scanAngles at ha
  obtain ⟨k, hk, rfl⟩ := List.mem_map.mp ha
  have hk121 : k < 121 := List.mem_range.mp hk
  have hk0 : (0 : ℚ) ≤ (k : ℚ) := Nat.cast_nonneg k
  have hk120 : (k : ℚ) ≤ 120 := by
    have hk' : k ≤ 120 := by omega
    exact_mod_cast hk'
  constructor <;> nlinarith

/-- With at least three matches the solver returns exactly the first
minimizer of the total residual over the candidate scan. -/
theorem calculateOptimalRotation_eq_argmin (cosD sinD sqrtQ : ℚ → ℚ)
    (kp1 kp2 : ℕ → Point) (ms : List DMatch) (cur : ℚ) (center : Option Point)
    (h : 3 ≤ ms.length) :
    ∃ θ,
      firstArgmin
        (totalDistanceAt cosD sinD sqrtQ
          (ms.map fun m => (kp1 m.queryIdx, kp2 m.trainIdx)) (center.getD ⟨0, 0⟩))
        scanAngles = some θ ∧
      calculateOptimalRotation cosD sinD sqrtQ kp1 kp2 ms cur center = ⟨θ, 0⟩ := by
  have hlt : ¬ ms.length < 3 := not_lt.mpr h
  rcases hfa :
      firstArgmin
        (totalDistanceAt cosD sinD sqrtQ
          (ms.map fun m => (kp1 m.queryIdx, kp2 m.trainIdx)) (center.getD ⟨0, 0⟩))
        scanAngles with _ | θ
  · exact absurd ((firstArgmin_eq_none_iff _ _).mp hfa) scanAngles_ne_nil
  · refine ⟨θ, hfa, ?_⟩
    unfold calculateOptimalRotation
    rw [if_neg hlt]
    have hbest := scanFold_none_eq
      (totalDistanceAt cosD sinD sqrtQ
        (ms.map fun m => (kp1 m.queryIdx, kp2 m.trainIdx)) (center.getD ⟨0, 0⟩))
      scanAngles cur
    rw [hfa] at hbest
    simp only [hbest]

/-- C3: with at least 3 correspondences the solver returns the candidate
angle of the ascending inclusive scan of [-30, 30] (step 0.5) that
minimizes the total Euclidean residual of points2 rotated around the
rotation center against points1, the first angle of the scan winning
ties; with no region center supplied the origin is used as rotation
center. -/
theorem calculateOptimalRotation_scan_argmin (cosD sinD sqrtQ : ℚ → ℚ)
    (kp1 kp2 : ℕ → Point) (ms : List DMatch) (cur : ℚ) (center : Option Point)
    (h : 3 ≤ ms.length) :
    (∃ l1 l2,
        scanAngles = l1
            ++ (calculateOptimalRotation cosD sinD sqrtQ kp1 kp2 ms cur center).rotation
              :: l2 ∧
        (∀ b ∈ l1,
          totalDistanceAt cosD sinD sqrtQ
              (ms.map fun m => (kp1 m.queryIdx, kp2 m.trainIdx)) (center.getD ⟨0, 0⟩)
              ((calculateOptimalRotation cosD sinD sqrtQ kp1 kp2 ms cur center).rotation)
            < totalDistanceAt cosD sinD sqrtQ
              (ms.map fun m => (kp1 m.queryIdx, kp2 m.trainIdx)) (center.getD ⟨0, 0⟩) b) ∧
        (∀ b ∈ l2,
          totalDistanceAt cosD sinD sqrtQ
              (ms.map fun m => (kp1 m.queryIdx, kp2 m.trainIdx)) (center.getD ⟨0, 0⟩)
              ((calculateOptimalRotation cosD sinD sqrtQ kp1 kp2 ms cur center).rotation)
            ≤ totalDistanceAt cosD sinD sqrtQ
              (ms.map fun m => (kp1 m.queryIdx, kp2 m.trainIdx)) (center.getD ⟨0, 0⟩) b)) ∧
    calculateOptimalRotation cosD sinD sqrtQ kp1 kp2 ms cur none
      = calculateOptimalRotation cosD sinD sqrtQ kp1 kp2 ms cur (some ⟨0, 0⟩) := by
  obtain ⟨θ, hfa, heq⟩ :=
    calculateOptimalRotation_eq_argmin cosD sinD sqrtQ kp1 kp2 ms cur center h
  have hrot : (calculateOptimalRotation cosD sinD sqrtQ kp1 kp2 ms cur center).rotation = θ := by
    rw [heq]
  obtain ⟨l1, l2, hsplit, hstrict, hle⟩ := firstArgmin_decomp _ scanAngles θ hfa
  rw [hrot]
  exact ⟨⟨l1, l2, hsplit, hstrict, hle⟩, rfl⟩

/-- Keypoint table for the witnesses: every index maps to the origin. -/
def wKp : ℕ → Point := fun _ => ⟨0, 0⟩

/-- Three matches with distance 0, for the solver witnesses. -/
def wMatches : List DMatch := [⟨0, 0, 0⟩, ⟨1, 1, 0⟩, ⟨2, 2, 0⟩]

/-- Witness for C3 at a concrete input. -/
theorem calculateOptimalRotation_scan_argmin_witness :
    3 ≤ wMatches.length ∧
    ((∃ l1 l2,
        scanAngles = l1
            ++ (calculateOptimalRotation oneFun zeroFun oneFun wKp wKp wMatches 0 none).rotation
              :: l2 ∧
        (∀ b ∈ l1,
          totalDistanceAt oneFun zeroFun oneFun
              (wMatches.map fun m => (wKp m.queryIdx, wKp m.trainIdx)) ⟨0, 0⟩
              ((calculateOptimalRotation oneFun zeroFun oneFun wKp wKp wMatches 0 none).rotation)
            < totalDistanceAt oneFun zeroFun oneFun
              (wMatches.map fun m => (wKp m.queryIdx, wKp m.trainIdx)) ⟨0, 0⟩ b) ∧
        (∀ b ∈ l2,
          totalDistanceAt oneFun zeroFun oneFun
              (wMatches.map fun m => (wKp m.queryIdx, wKp m.trainIdx)) ⟨0, 0⟩
              ((calculateOptimalRotation oneFun zeroFun oneFun wKp wKp wMatches 0 none).rotation)
            ≤ totalDistanceAt oneFun zeroFun oneFun
              (wMatches.map fun m => (wKp m.queryIdx, wKp m.trainIdx)) ⟨0, 0⟩ b)) ∧
     calculateOptimalRotation oneFun zeroFun oneFun wKp wKp wMatches 0 none
       = calculateOptimalRotation oneFun zeroFun oneFun wKp wKp wMatches 0 (some ⟨0, 0⟩)) :=
  ⟨by decide,
   calculateOptimalRotation_scan_argmin oneFun zeroFun oneFun wKp wKp wMatches 0 none
     (by decide)⟩

/-- C10: with at least 3 correspondences the returned angle lies in
[-30, 30] and does not depend on the currentRotation argument: the first
scanned candidate always replaces the initial best value. -/
theorem calculateOptimalRotation_bounded_insensitive (cosD sinD sqrtQ : ℚ → ℚ)
    (kp1 kp2 : ℕ → Point) (ms : List DMatch) (cur cur2 : ℚ) (center : Option Point)
    (h : 3 ≤ ms.length) :
    -30 ≤ (calculateOptimalRotation cosD sinD sqrtQ kp1 kp2 ms cur center).rotation ∧
    (calculateOptimalRotation cosD sinD sqrtQ kp1 kp2 ms cur center).rotation ≤ 30 ∧
    calculateOptimalRotation cosD sinD sqrtQ kp1 kp2 ms cur center
      = calculateOptimalRotation cosD sinD sqrtQ kp1 kp2 ms cur2 center := by
  obtain ⟨θ, hfa, heq⟩ :=
    calculateOptimalRotation_eq_argmin cosD sinD sqrtQ kp1 kp2 ms cur center h
  obtain ⟨θ2, hfa2, heq2⟩ :=
    calculateOptimalRotation_eq_argmin cosD sinD sqrtQ kp1 kp2 ms cur2 center h
  rw [hfa] at hfa2
  have hθ : θ2 = θ := by
    injection hfa2.symm
  obtain ⟨l1, l2, hsplit, _, _⟩ := firstArgmin_decomp _ scanAngles θ hfa
  have hmem : θ ∈ scanAngles := by
    rw [hsplit]
    exact List.mem_append.mpr (Or.inr (List.mem_cons_self θ l2))
  obtain ⟨hlo, hhi⟩ := scanAngles_mem_bounds θ hmem
  refine ⟨?_, ?_, ?_⟩
  · rw [heq]; exact hlo
  · rw [heq]; exact hhi
  · rw [heq, heq2, hθ]

/-- Witness for C10 at a concrete input. -/
theorem calculateOptimalRotation_bounded_insensitive_witness :
    3 ≤ wMatches.length ∧
    (-30 ≤ (calculateOptimalRotation oneFun zeroFun oneFun wKp wKp wMatches 0 none).rotation ∧
     (calculateOptimalRotation oneFun zeroFun oneFun wKp wKp wMatches 0 none).rotation ≤ 30 ∧
     calculateOptimalRotation oneFun zeroFun oneFun wKp wKp wMatches 0 none
       = calculateOptimalRotation oneFun zeroFun oneFun wKp wKp wMatches 7 none) :=
  ⟨by decide,
   calculateOptimalRotation_bounded_insensitive oneFun zeroFun oneFun wKp wKp wMatches 0 7 none
     (by decide)⟩

/-- Indexing the rotation pass output: entry j is the step applied to
index j. -/
theorem rotationPassSpec_getD (cosD sinD sqrtQ : ℚ → ℚ) (corrs : ℕ → List DMatch)
    (kpA kpB : ℕ → ℕ → Point) (images : List AlignImage) (j : ℕ)
    (hj : j < images.length) :
    (rotationPassSpec cosD sinD sqrtQ corrs kpA kpB images).getD j default
      = rotationPassStep cosD sinD sqrtQ corrs kpA kpB images j := by
  unfold rotationPassSpec
  have hlen : j < ((List.range images.length).map
      (rotationPassStep cosD sinD sqrtQ corrs kpA kpB images)).length := by
    simpa using hj
  rw [List.getD_eq_getElem _ _ hlen, List.getElem_map, List.getElem_range]

/-- C7: with fewer than 3 correspondences the rotation solver returns
the caller-supplied current rotation unchanged (and translateY 0); in
the rotation pass this is non-fatal: the image of a pair with too few
filtered correspondences keeps its whole transform, and every image's
result depends only on its own pair's correspondence list, so the run
continues for the remaining pairs. -/
theorem calculateOptimalRotation_insufficient (cosD sinD sqrtQ : ℚ → ℚ)
    (kp1 kp2 : ℕ → Point) (ms : List DMatch) (cur : ℚ) (center : Option Point)
    (corrs corrs2 : ℕ → List DMatch) (kpA kpB : ℕ → ℕ → Point)
    (images : List AlignImage) (j : ℕ)
    (hms : ms.length < 3) (hj1 : 1 ≤ j) (hj2 : j < images.length)
    (hfew : (matchFeatures (corrs (j - 1))).length < 3)
    (hagree : corrs2 (j - 1) = corrs (j - 1)) :
    calculateOptimalRotation cosD sinD sqrtQ kp1 kp2 ms cur center = ⟨cur, 0⟩ ∧
    ((rotationPassSpec cosD sinD sqrtQ corrs kpA kpB images).getD j default).transform
      = (images.getD j default).transform ∧
    (rotationPassSpec cosD sinD sqrtQ corrs2 kpA kpB images).getD j default
      = (rotationPassSpec cosD sinD sqrtQ corrs kpA kpB images).getD j default := by
  have hj0 : j ≠ 0 := by omega
  refine ⟨?_, ?_, ?_⟩
  · unfold calculateOptimalRotation
    rw [if_pos hms]
  · rw [rotationPassSpec_getD cosD sinD sqrtQ corrs kpA kpB images j hj2]
    unfold rotationPassStep
    rw [if_neg hj0]
    split
    · next pr r hprev himg =>
        have hres : calculateOptimalRotation cosD sinD sqrtQ (kpA (j - 1)) (kpB (j - 1))
            (matchFeatures (corrs (j - 1)))
            (images.getD j default).transform.rotation (some (rectCenter r))
            = ⟨(images.getD j default).transform.rotation, 0⟩ := by
          unfold calculateOptimalRotation
          rw [if_pos hfew]
        rw [hres]
    · rfl
  · rw [rotationPassSpec_getD cosD sinD sqrtQ corrs2 kpA kpB images j hj2,
      rotationPassSpec_getD cosD sinD sqrtQ corrs kpA kpB images j hj2]
    unfold rotationPassStep
    rw [hagree]

/-- Correspondence table returning no matches for every pair, for the
C7 witness. -/
def emptyCorrs : ℕ → List DMatch := fun _ => []

/-- Keypoint tables for the C7 witness. -/
def wKpTab : ℕ → ℕ → Point := fun _ => wKp

/-- Two images with regions, for the C7 witness. -/
def wImages : List AlignImage :=
  [⟨1000, 800, some ⟨100, 100, 50, 50⟩, ⟨1, 0, 0, 0⟩⟩,
   ⟨1000, 800, some ⟨120, 90, 50, 50⟩, ⟨1, 0, 3, 4⟩⟩]

/-- Witness for C7 at a concrete input. -/
theorem calculateOptimalRotation_insufficient_witness :
    ([] : List DMatch).length < 3 ∧ 1 ≤ 1 ∧ 1 < wImages.length ∧
    (matchFeatures (emptyCorrs 0)).length < 3 ∧
    (calculateOptimalRotation oneFun zeroFun oneFun wKp wKp [] 7 none = ⟨7, 0⟩ ∧
     ((rotationPassSpec oneFun zeroFun oneFun emptyCorrs wKpTab wKpTab wImages).getD 1
         default).transform
       = (wImages.getD 1 default).transform ∧
     (rotationPassSpec oneFun zeroFun oneFun emptyCorrs wKpTab wKpTab wImages).getD 1 default
       = (rotationPassSpec oneFun zeroFun oneFun emptyCorrs wKpTab wKpTab wImages).getD 1
           default) :=
  ⟨by decide, by decide, by decide, by decide,
   calculateOptimalRotation_insufficient oneFun zeroFun oneFun wKp wKp [] 7 none
     emptyCorrs emptyCorrs wKpTab wKpTab wImages 1
     (by decide) (by decide) (by decide) (by decide) rfl⟩

/-- C6 (amended): when any image of the list lacks a selected region,
both alignment handlers abort the whole run at their guard and return
the image list unchanged — no pair is processed, whatever orchestrator
would have run. -/
theorem handlers_unchanged_on_missing_region
    (alignAll alignByArea : List AlignImage → List AlignImage)
    (images : List AlignImage)
    (h : (images.any fun img => img.selectedArea.isNone) = true) :
    handleAutoAlign alignAll images = images ∧
    handleAlignByArea alignByArea images = images := by
  unfold handleAutoAlign handleAlignByArea
  rw [h]
  constructor <;> split <;> rfl

/-- Witness for C6's amended theorem at the concrete list c6Images. -/
theorem handlers_unchanged_on_missing_region_witness :
    (c6Images.any fun img => img.selectedArea.isNone) = true ∧
    (handleAutoAlign alignImagesByAreaOnlySpec c6Images = c6Images ∧
     handleAlignByArea alignImagesByAreaOnlySpec c6Images = c6Images) :=
  ⟨by decide,
   handlers_unchanged_on_missing_region alignImagesByAreaOnlySpec
     alignImagesByAreaOnlySpec c6Images (by decide)⟩

/-- C6 counterexample: on a list whose middle image lacks a region, the
claim says the pair before the region-less image is still processed
normally; in the code the handler aborts the entire run instead, so
image 0 keeps its initial transform and in particular does not receive
the centering transform pass 1 would give it. -/
theorem handler_not_processing_pair_before_gap :
    handleAlignByArea alignImagesByAreaOnlySpec c6Images = c6Images ∧
    ((handleAlignByArea alignImagesByAreaOnlySpec c6Images).getD 0 default).transform
      ≠ calculateCenterImageTransform 1000 800 ⟨1, 0, 5, 5⟩
          (some ⟨100, 100, 50, 50⟩) := by
  have h1 : handleAlignByArea alignImagesByAreaOnlySpec c6Images = c6Images := by decide
  refine ⟨h1, ?_⟩
  rw [h1]
  intro heq
  have hx := congrArg Transform.translateX heq
  simp only [c6Images, calculateCenterImageTransform, List.getD_cons_zero] at hx
  norm_num at hx

/-- When all distances equal d, the source's median is d. -/
theorem medianDistance_const (l : List DMatch) (d : ℚ) (hne : l ≠ [])
    (hall : ∀ m ∈ l, m.distance = d) : medianDistance l = d := by
  have hmemmap : ∀ x ∈ l.map (fun m => m.distance), x = d := by
    intro x hx
    obtain ⟨m, hm, rfl⟩ := List.mem_map.mp hx
    exact hall m hm
  have hmemsorted : ∀ x ∈ sortedDistances l, x = d := by
    intro x hx
    exact hmemmap x
      ((List.perm_insertionSort (· ≤ ·) (l.map fun m => m.distance)).mem_iff.mp hx)
  have hlen : (sortedDistances l).length = l.length := by
    have hp := (List.perm_insertionSort (· ≤ ·) (l.map fun m => m.distance)).length_eq
    simpa [sortedDistances] using hp
  have hpos : 0 < l.length := List.length_pos.mpr hne
  have hidx : l.length / 2 < (sortedDistances l).length := by
    rw [hlen]
    exact Nat.div_lt_self hpos one_lt_two
  unfold medianDistance
  rw [List.getD_eq_getElem _ _ hidx]
  exact hmemsorted _ (List.getElem_mem hidx)

/-- A non-empty match list whose distances are all equal is filtered to
the empty list: stage 1's strict threshold min(50, 0.8·m) excludes the
common value when it is nonnegative, and stage 2's zero-variance cutoff
drops it otherwise. -/
theorem matchFeatures_const_eq_nil (l : List DMatch) (d : ℚ) (hne : l ≠ [])
    (hall : ∀ m ∈ l, m.distance = d) : matchFeatures l = [] := by
  have hmed : medianDistance l = d := medianDistance_const l d hne hall
  simp only [matchFeatures, hmed]
  rw [if_neg hne]
  by_cases hd : d < min 50 (d * (4 / 5))
  · have hgood : (l.filter fun m => m.distance < min 50 (d * (4 / 5))) = l := by
      apply List.filter_eq_self.mpr
      intro m hm
      simp [hall m hm, hd]
    rw [hgood, if_neg hne]
    have hds : (l.map fun m => m.distance) = List.replicate l.length d := by
      have hx : ∀ x ∈ l.map (fun m => m.distance), x = d := by
        intro x hx
        obtain ⟨m, hm, rfl⟩ := List.mem_map.mp hx
        exact hall m hm
      have := List.eq_replicate_of_mem hx
      simpa using this
    rw [hds]
    have hlen0 : (l.length : ℚ) ≠ 0 := by
      have : l.length ≠ 0 := fun h => hne (List.length_eq_zero.mp h)
      exact_mod_cast this
    have hmean : (List.replicate l.length d).sum
        / ((List.replicate l.length d).length : ℚ) = d := by
      rw [List.sum_replicate, List.length_replicate, nsmul_eq_mul]
      field_simp
    rw [hmean]
    have hvar : ((List.replicate l.length d).map fun x => (x - d) ^ 2).sum
        / ((List.replicate l.length d).length : ℚ) = 0 := by
      rw [List.map_replicate]
      simp
    rw [hvar]
    apply List.filter_eq_nil_iff.mpr
    intro m hm
    simp [withinTwoSigma, hall m hm]
  · have hgood : (l.filter fun m => m.distance < min 50 (d * (4 / 5))) = [] := by
      apply List.filter_eq_nil_iff.mpr
      intro m hm
      simp [hall m hm, hd]
    rw [hgood]
    simp

/-- C5 (amended): the filter's output is never larger than its input;
for a non-empty input in which all distance scores are identical the
filter returns the empty list — the strict threshold min(50, 0.8·m)
already excludes the common value (and the 2σ stage drops the rest when
the variance is zero). -/
theorem matchFeatures_length_le_and_const (l : List DMatch) (d : ℚ) :
    (∀ l2 : List DMatch, (matchFeatures l2).length ≤ l2.length) ∧
    (l ≠ [] → (∀ m ∈ l, m.distance = d) → matchFeatures l = []) := by
  constructor
  · intro l2
    by_cases h2 : l2 = []
    · simp [matchFeatures, h2]
    · simp only [matchFeatures, if_neg h2]
      split_ifs with hg
      · exact List.length_filter_le _ _
      · exact le_trans (List.length_filter_le _ _) (List.length_filter_le _ _)
  · intro hne hall
    exact matchFeatures_const_eq_nil l d hne hall

/-- Witness for C5's amended theorem at the concrete list c5Input. -/
theorem matchFeatures_length_le_and_const_witness :
    c5Input ≠ [] ∧ (∀ m ∈ c5Input, m.distance = 10) ∧
    ((matchFeatures c5Input).length ≤ c5Input.length ∧ matchFeatures c5Input = []) :=
  ⟨by decide, by decide,
   (matchFeatures_length_le_and_const c5Input 10).1 c5Input,
   (matchFeatures_length_le_and_const c5Input 10).2 (by decide) (by decide)⟩

/-- C5 counterexample: on three correspondences all with distance 10 the
filter does not retain them all — it returns the empty list. -/
theorem matchFeatures_drops_identical_distances :
    matchFeatures c5Input = [] ∧ matchFeatures c5Input ≠ c5Input := by
  have h : matchFeatures c5Input = [] :=
    matchFeatures_const_eq_nil c5Input 10 (by decide) (by decide)
  exact ⟨h, by rw [h]; decide⟩

/-- C4 (amended): the filter behaves exactly as described once "median"
is read as the source's convention — the element at index ⌊n/2⌋ of the
ascending-sorted distances (the upper middle for even length). -/
theorem matchFeatures_eq_amended (l : List DMatch) :
    matchFeatures l = correspondenceFilterAmended l := by
  by_cases hne : l = []
  · simp [matchFeatures, correspondenceFilterAmended, hne]
  · simp only [matchFeatures, correspondenceFilterAmended, medianDistance,
      sortedDistances, if_neg hne]
    split_ifs with hg
    · rw [hg]
      simp
    · rfl

/-- C4 counterexample: on distances 10, 14, 20, 30 the source keeps two
correspondences while the claim's conventional-median filter keeps none,
because the source's median is the upper middle 20 (threshold 16) while
the conventional median is 17 (threshold 13.6). -/
theorem matchFeatures_median_convention_counterexample :
    matchFeatures c4Input = [⟨0, 0, 10⟩, ⟨1, 1, 14⟩] ∧
    correspondenceFilterSpec c4Input = [] ∧
    matchFeatures c4Input ≠ correspondenceFilterSpec c4Input := by
  have hne4 : c4Input ≠ [] := by decide
  have h1 : matchFeatures c4Input = [⟨0, 0, 10⟩, ⟨1, 1, 14⟩] := by
    unfold matchFeatures
    rw [if_neg hne4]
    norm_num [medianDistance, sortedDistances, c4Input,
      List.insertionSort, List.orderedInsert, List.filter, withinTwoSigma]
  have h2 : correspondenceFilterSpec c4Input = [] := by
    unfold correspondenceFilterSpec
    rw [if_neg hne4]
    norm_num [trueMedian, c4Input,
      List.insertionSort, List.orderedInsert, List.filter, withinTwoSigma]
  refine ⟨h1, h2, ?_⟩
  rw [h1, h2]
  simp

/-- C2: alignToReference returns scale 1, the current rotation
unchanged, and translation (refTranslate + (refRegionCenter - refCenter))
- (curRegionCenter - curCenter); consequently, for three images with
regions at arbitrary offsets, unit scale on the first image and zero
rotation, applying it pairwise 0→1→2 brings all three region centers to
the same canvas point. -/
theorem calculateAlignImagesTransform_chain (cosD sinD : ℚ → ℚ)
    (W0 H0 W1 H1 W2 H2 : ℚ) (t0 t1 t2 : Transform) (r0 r1 r2 : Rect)
    (hc : cosD 0 = 1) (hs : sinD 0 = 0)
    (hr0 : t0.rotation = 0) (hr1 : t1.rotation = 0) (hr2 : t2.rotation = 0)
    (hs0 : t0.scale = 1) :
    (calculateAlignImagesTransform W0 H0 t0 W1 H1 t1 (some r0) (some r1)).scale = 1 ∧
    (calculateAlignImagesTransform W0 H0 t0 W1 H1 t1 (some r0) (some r1)).rotation
      = t1.rotation ∧
    (calculateAlignImagesTransform W0 H0 t0 W1 H1 t1 (some r0) (some r1)).translateX
      = (t0.translateX + ((r0.x + r0.width / 2) - W0 / 2))
        - ((r1.x + r1.width / 2) - W1 / 2) ∧
    (calculateAlignImagesTransform W0 H0 t0 W1 H1 t1 (some r0) (some r1)).translateY
      = (t0.translateY + ((r0.y + r0.height / 2) - H0 / 2))
        - ((r1.y + r1.height / 2) - H1 / 2) ∧
    canvasMap cosD sinD
        (calculateAlignImagesTransform W0 H0 t0 W1 H1 t1 (some r0) (some r1))
        W1 H1 (rectCenter r1)
      = canvasMap cosD sinD t0 W0 H0 (rectCenter r0) ∧
    canvasMap cosD sinD
        (calculateAlignImagesTransform W1 H1
          (calculateAlignImagesTransform W0 H0 t0 W1 H1 t1 (some r0) (some r1))
          W2 H2 t2 (some r1) (some r2))
        W2 H2 (rectCenter r2)
      = canvasMap cosD sinD t0 W0 H0 (rectCenter r0) := by
  refine ⟨rfl, rfl, rfl, rfl, ?_, ?_⟩ <;>
    simp [canvasMap, calculateAlignImagesTransform, rectCenter, Point.mk.injEq,
      hr0, hr1, hr2, hs0, hc, hs]

/-- Witness for C2 at three concrete 1000×800 images with the regions of
the spec's end-to-end scenario and identity initial transforms. -/
theorem calculateAlignImagesTransform_chain_witness :
    oneFun 0 = 1 ∧ zeroFun 0 = 0 ∧
    (identityTransform.rotation = 0 ∧ identityTransform.scale = 1) ∧
    ((calculateAlignImagesTransform 1000 800 identityTransform 1000 800
        identityTransform (some ⟨100, 100, 50, 50⟩) (some ⟨120, 90, 50, 50⟩)).scale = 1 ∧
     (calculateAlignImagesTransform 1000 800 identityTransform 1000 800
        identityTransform (some ⟨100, 100, 50, 50⟩)
        (some ⟨120, 90, 50, 50⟩)).rotation = identityTransform.rotation ∧
     (calculateAlignImagesTransform 1000 800 identityTransform 1000 800
        identityTransform (some ⟨100, 100, 50, 50⟩)
        (some ⟨120, 90, 50, 50⟩)).translateX
       = (identityTransform.translateX + (((100 : ℚ) + 50 / 2) - 1000 / 2))
         - (((120 : ℚ) + 50 / 2) - 1000 / 2) ∧
     (calculateAlignImagesTransform 1000 800 identityTransform 1000 800
        identityTransform (some ⟨100, 100, 50, 50⟩)
        (some ⟨120, 90, 50, 50⟩)).translateY
       = (identityTransform.translateY + (((100 : ℚ) + 50 / 2) - 800 / 2))
         - (((90 : ℚ) + 50 / 2) - 800 / 2) ∧
     canvasMap oneFun zeroFun
         (calculateAlignImagesTransform 1000 800 identityTransform 1000 800
           identityTransform (some ⟨100, 100, 50, 50⟩) (some ⟨120, 90, 50, 50⟩))
         1000 800 (rectCenter ⟨120, 90, 50, 50⟩)
       = canvasMap oneFun zeroFun identityTransform 1000 800
           (rectCenter ⟨100, 100, 50, 50⟩) ∧
     canvasMap oneFun zeroFun
         (calculateAlignImagesTransform 1000 800
           (calculateAlignImagesTransform 1000 800 identityTransform 1000 800
             identityTransform (some ⟨100, 100, 50, 50⟩) (some ⟨120, 90, 50, 50⟩))
           1000 800 identityTransform (some ⟨120, 90, 50, 50⟩)
           (some ⟨80, 110, 50, 50⟩))
         1000 800 (rectCenter ⟨80, 110, 50, 50⟩)
       = canvasMap oneFun zeroFun identityTransform 1000 800
           (rectCenter ⟨100, 100, 50, 50⟩)) :=
  ⟨rfl, rfl, ⟨rfl, rfl⟩,
   calculateAlignImagesTransform_chain oneFun zeroFun 1000 800 1000 800 1000 800
     identityTransform identityTransform identityTransform
     ⟨100, 100, 50, 50⟩ ⟨120, 90, 50, 50⟩ ⟨80, 110, 50, 50⟩
     rfl rfl rfl rfl rfl rfl⟩
